import Mathlib

/-!
Verification development for the py-netatmo-truetemp client.

The repository under verification is a Python client for Netatmo's
cookie/CSRF web-authentication flow.  Its core (authentication session,
resilient request executor, credential cache) is shallowly embedded here:
pure control flow becomes Lean functions, the concurrent single-flight
handshake becomes an explicit transition system, and machine effects
(HTTP, file system) become explicit data passed in and out.
-/

namespace NetatmoTrueTemp

/-- Modelled from the spec: exceptions.py is not under src/.  `ApiError`
carries an HTTP status when known, plus a human-readable message
(spec section 7, error taxonomy). -/
structure ApiErr where
  statusCode : Option Nat
  message : String
deriving Repr, DecidableEq

/-- Modelled from the spec: exceptions.py is not under src/.
`AuthenticationError` carries the name of the failing handshake stage. -/
structure AuthErr where
  stage : String
deriving Repr, DecidableEq

/-- Network-level failure kinds observed by the HTTP layer
(spec section 4.2 policy step 2). -/
inductive NetKind where
  | connRefused
  | timeout
deriving Repr, DecidableEq

/-- Modelled from the spec: api_client.py is not under src/.  The outcome
of one HTTP send attempt as the executor observes it:
* `ok decoded` — status 200; `decoded = none` models an empty or
  undecodable body (decode failure), `some p` the decoded payload;
* `httpFail status bodyText` — a non-2xx response; `bodyText = .error ()`
  models a corrupted failure object whose body inspection itself raises;
* `netFail k` — connection refused or timeout before any response. -/
inductive AttemptResult where
  | ok (decoded : Option String)
  | httpFail (status : Nat) (bodyText : Except Unit String)
  | netFail (k : NetKind)

/-- Modelled from the spec: api_client.py is not under src/.  Message
attached to a network-class failure; it identifies the failure class
(spec section 4.2 policy step 2). -/
def netErrMessage : NetKind → String
  | .connRefused => "Network error: connection refused"
  | .timeout => "Network error: request timeout"

/-- The `ApiError` wrapping a network-level failure. -/
def netErr (k : NetKind) : ApiErr :=
  { statusCode := none, message := netErrMessage k }

/-- The `ApiError` wrapping a decode failure or empty body on a 200
(spec section 4.2 policy step 5: a network-class error). -/
def decodeErr : ApiErr :=
  { statusCode := none, message := "Network error: failed to decode response body" }

/-- The `ApiError` surfacing a non-2xx HTTP status. -/
def httpErr (s : Nat) : ApiErr :=
  { statusCode := some s, message := "HTTP " ++ toString s ++ " error" }

/-- A body that is empty or whitespace-only: what stripping whitespace
from it leaves nothing of. -/
def blankStr (s : String) : Bool := s.data.all Char.isWhitespace

/-- Whether the first character list is a leading segment of the
second. -/
def listStarts : List Char → List Char → Bool
  | [], _ => true
  | _, [] => false
  | c :: cs, d :: ds => c = d && listStarts cs ds

/-- Whether `pre` begins the string `s`. -/
def strStarts (pre s : String) : Bool := listStarts pre.data s.data

/-- Whether `suf` ends the string `s`. -/
def strEnds (suf s : String) : Bool := listStarts suf.data.reverse s.data.reverse

/-- Modelled from the spec: api_client.py is not under src/.  The
conservative authentication-failure classifier (spec section 4.2 policy
steps 3-4): a 403 whose body is non-empty after stripping whitespace is
an authentication failure regardless of content; a 403 whose body
inspection raises is classified conservatively as an authentication
failure; any other status never is.  The function is total: a corrupted
body (`.error`) is absorbed, not propagated. -/
def is_authentication_error (status : Nat) (bodyText : Except Unit String) : Bool :=
  if status = 403 then
    match bodyText with
    | .ok s => !(blankStr s)
    | .error _ => true
  else
    false

/-- Observable trace of one `execute` call: how many HTTP sends happened,
how many `invalidate()` calls were issued to the authentication session,
how many times auth headers were fetched, and the final outcome. -/
structure ExecTrace where
  httpAttempts : Nat
  invalidations : Nat
  headerFetches : Nat
  result : Except ApiErr String

/-- Settle a single attempt's outcome when no further retry is available
(used for the retried attempt, and for non-403-classified first
attempts): 200 with decodable body yields the payload, decode failure
and network failure yield their network-class errors, and any non-2xx
status is surfaced as `ApiError{status,...}`. -/
def settleFinal : AttemptResult → Except ApiErr String
  | .ok (some p) => .ok p
  | .ok none => .error decodeErr
  | .netFail k => .error (netErr k)
  | .httpFail s _ => .error (httpErr s)

/-- Modelled from the spec: api_client.py is not under src/.  One logical
`execute(method, path, ...)` call (spec section 4.2 state machine
`START → SEND → ...`).  `server i` is the outcome the wire produces for
the i-th HTTP send.  The executor fetches headers, sends attempt 0; a
403 classified as an authentication failure triggers exactly one
`invalidate()`, a fresh header fetch and one retried send whose outcome
is final (no second invalidation, no third attempt); every other
failure, network failures included, is final immediately. -/
def execute (server : Nat → AttemptResult) : ExecTrace :=
  match server 0 with
  | .httpFail s b =>
    if is_authentication_error s b then
      { httpAttempts := 2, invalidations := 1, headerFetches := 2,
        result := settleFinal (server 1) }
    else
      { httpAttempts := 1, invalidations := 0, headerFetches := 1,
        result := .error (httpErr s) }
  | r =>
    { httpAttempts := 1, invalidations := 0, headerFetches := 1,
      result := settleFinal r }

/-- A persisted cookie record: the ordered name/value pairs of the single
JSON object the cache file holds (spec section 6, persisted cache file). -/
abbrev CookieRecord := List (String × String)

/-- A string free of the double-quote character, so that it serializes
into a JSON string literal without escaping.  Cookie names and values in
this provider's flow are quote-free. -/
def quoteFree (s : String) : Prop := '"' ∉ s.data

instance (s : String) : Decidable (quoteFree s) := by
  unfold quoteFree; infer_instance

/-- A record is valid for persistence when every name and value is
quote-free. -/
def validRecord (r : CookieRecord) : Prop :=
  ∀ p ∈ r, quoteFree p.1 ∧ quoteFree p.2

instance (r : CookieRecord) : Decidable (validRecord r) := by
  unfold validRecord; infer_instance

/-- Characters of one serialized `"name": "value"` member. -/
def encodePair (k v : String) : List Char :=
  '"' :: (k.data ++ '"' :: ':' :: ' ' :: '"' :: (v.data ++ ['"']))

/-- Characters of the comma-separated members of the serialized object. -/
def encodeItems : CookieRecord → List Char
  | [] => []
  | [(k, v)] => encodePair k v
  | (k, v) :: rest => encodePair k v ++ ',' :: ' ' :: encodeItems rest

/-- Modelled from the spec: cookie_store.py is not under src/.  Serialize
a record as the single JSON object `{"n1": "v1", "n2": "v2"}` the cache
file holds (spec sections 4.3 and 6). -/
def serializeRecord (r : CookieRecord) : String :=
  ⟨'{' :: (encodeItems r ++ ['}'])⟩

/-- Read a JSON string body up to its closing quote: the input starts
just after the opening quote; returns the content and the characters
after the closing quote, or `none` if no closing quote exists. -/
def parseQuoted : List Char → Option (List Char × List Char)
  | [] => none
  | c :: cs =>
    if c = '"' then
      some ([], cs)
    else
      match parseQuoted cs with
      | some (content, rest) => some (c :: content, rest)
      | none => none

/-- Parse the members of the serialized object (the characters after the
opening brace, including the closing brace, which must end the input).
`fuel` bounds the number of members. -/
def parseItems : Nat → List Char → Option CookieRecord
  | _, '}' :: rest => if rest = [] then some [] else none
  | fuel + 1, '"' :: cs1 =>
    match parseQuoted cs1 with
    | some (k, ':' :: ' ' :: '"' :: cs3) =>
      match parseQuoted cs3 with
      | some (v, '}' :: rest) => if rest = [] then some [(⟨k⟩, ⟨v⟩)] else none
      | some (v, ',' :: ' ' :: cs5) =>
        match parseItems fuel cs5 with
        | some items => some ((⟨k⟩, ⟨v⟩) :: items)
        | none => none
      | _ => none
    | _ => none
  | _, _ => none

/-- Modelled from the spec: cookie_store.py is not under src/.  Parse a
cache file's content back into a record; `none` on any deviation from
the serialized shape (the parse-failure case of `load`). -/
def parseRecord (s : String) : Option CookieRecord :=
  match s.data with
  | '{' :: rest => parseItems s.data.length rest
  | _ => none

/-- The cookie file's slot in the file system: content and permission
bits when present, plus the permission bits of the parent directory when
it exists.  This is the only file-system state the store touches. -/
structure CookieFs where
  file : Option (String × Nat)
  dirMode : Option Nat
deriving Repr, DecidableEq

namespace CookieStore

/-- Modelled from the spec: cookie_store.py is not under src/.
`save(record)` serializes and writes the file with owner-only permission
0o600, creating the parent directory with owner-only permission 0o700
when it does not exist yet (spec section 4.3). -/
def save (r : CookieRecord) (fs : CookieFs) : CookieFs :=
  { file := some (serializeRecord r, 0o600),
    dirMode := some (fs.dirMode.getD 0o700) }

/-- Modelled from the spec: cookie_store.py is not under src/.
`load() -> record | absent`: absent (`none`), not an error, when the
file does not exist, is empty, or fails to parse; on parse failure the
corrupt file is deleted as a side effect (spec section 4.3).  Returns
the loaded record together with the resulting file-system state. -/
def load (fs : CookieFs) : Option CookieRecord × CookieFs :=
  match fs.file with
  | none => (none, fs)
  | some (content, _) =>
    if content = "" then
      (none, fs)
    else
      match parseRecord content with
      | some r => (some r, fs)
      | none => (none, { fs with file := none })

/-- Modelled from the spec: cookie_store.py is not under src/.
`clear()` removes the file; a no-op when already absent. -/
def clear (fs : CookieFs) : CookieFs :=
  { fs with file := none }

end CookieStore

/-- The fixed client identifier sent as `User-Agent` on every call
(spec sections 3 and 6; the concrete value is the one the repository's
tests pin down). -/
def userAgent : String := "netatmo-home"

/-- Modelled from the spec: auth_manager.py is not under src/.  The
derived read-only header view
`{Authorization: "Bearer <token>", User-Agent: <fixed client identifier>}`
(spec section 3, AuthHeaders). -/
def authHeaders (token : String) : List (String × String) :=
  [("Authorization", "Bearer " ++ token), ("User-Agent", userAgent)]

/-- Modelled from the spec: auth_manager.py is not under src/.  The wire
outcomes of the provider's fixed 4-step login sequence (spec sections
4.1 step 3 and 6): the session cookie the login page sets, the CSRF
token, the access-token cookie the credential POST's redirect carries,
and whether the finalize GET succeeds.  `none` models the step failing
(non-2xx, missing cookie or missing token field). -/
structure WireFlow where
  sessionCookie : Option String
  csrfToken : Option String
  accessTokenCookie : Option String
  finalizeOk : Bool

/-- Result of a successful handshake: the bearer token and the cookie
set to persist. -/
structure HandshakeResult where
  token : String
  cookies : CookieRecord

/-- Modelled from the spec: auth_manager.py is not under src/.  The login
handshake (spec section 4.1 step 3): steps (a)-(d) in order, any step
failing fails the whole handshake with `AuthenticationError` carrying a
human-readable stage name; on success the access-token cookie becomes
the bearer token and the cookie set is retained for persistence. -/
def performHandshake (w : WireFlow) : Except AuthErr HandshakeResult :=
  match w.sessionCookie with
  | none => .error ⟨"Failed to obtain session cookie"⟩
  | some sess =>
    match w.csrfToken with
    | none => .error ⟨"Failed to obtain CSRF token"⟩
    | some _ =>
      match w.accessTokenCookie with
      | none => .error ⟨"Failed to obtain access token"⟩
      | some tokenCookie =>
        if w.finalizeOk then
          .ok { token := tokenCookie,
                cookies := [("session", sess), ("netatmocomaccess_token", tokenCookie)] }
        else
          .error ⟨"Failed to finalize authentication"⟩

/-- In-memory state of the authentication session together with the
cookie file it persists to. -/
structure AuthState where
  token : Option String
  fs : CookieFs

/-- Modelled from the spec: auth_manager.py is not under src/.  The
sequential semantics of `getAuthHeaders()` (spec section 4.1): return
cached headers when a token is held; otherwise perform the handshake
against the wire, persist the resulting cookie set via the credential
cache, and return the headers derived from the new token. -/
def get_auth_headers (st : AuthState) (w : WireFlow) :
    Except AuthErr (List (String × String) × AuthState) :=
  match st.token with
  | some t => .ok (authHeaders t, st)
  | none =>
    match performHandshake w with
    | .error e => .error e
    | .ok hs =>
      .ok (authHeaders hs.token,
           { token := some hs.token, fs := CookieStore.save hs.cookies st.fs })

/-! ### Concurrent single-flight model

Modelled from the spec: auth_manager.py is not under src/.  Spec
sections 4.1 (steps 2-5), 5 and 9 describe `getAuthHeaders` under
concurrent callers: a lock-free fast path reading an already-held token,
and a lock-guarded critical section in which the first entrant performs
the multi-step handshake (CSRF fetch, then login POST, then token
publication) while later entrants re-check the token under the lock and
reuse it.  Each caller is a small program counter; the handshake's
sub-steps are separate transitions so that mutual exclusion — not
atomicity of the handshake — is what the single-flight proof rests on. -/

/-- Program counter of one caller running `getAuthHeaders`. -/
inductive CallerPc where
  | start
  | waiting
  | locked
  | csrfDone
  | postDone
  | done (headers : List (String × String))
deriving Repr, DecidableEq

/-- Global state: the shared token slot, the lock owner, the two wire
counters the single-flight property is about (CSRF fetches and login
POSTs), and every caller's program counter. -/
structure AuthSys (n : Nat) where
  token : Option String
  lockHolder : Option (Fin n)
  csrfFetches : Nat
  loginPosts : Nat
  pc : Fin n → CallerPc

/-- Initial state: no token held, lock free, no wire traffic, every
caller about to enter `getAuthHeaders`. -/
def AuthSys.init (n : Nat) : AuthSys n :=
  { token := none, lockHolder := none, csrfFetches := 0, loginPosts := 0,
    pc := fun _ => .start }

/-- One interleaving step of the concurrent system; `tok` is the token
the handshake derives for the fixed credentials.  Transitions: the
lock-free fast path; observing no token and moving to lock acquisition;
acquiring the free lock; re-checking under the lock and reusing a token
published meanwhile; the three handshake sub-steps of the first entrant
(CSRF fetch, login POST, token publication + release). -/
inductive Step (tok : String) {n : Nat} : AuthSys n → AuthSys n → Prop where
  | fastPath (s : AuthSys n) (i : Fin n) (t : String) :
      s.pc i = .start → s.token = some t →
      Step tok s { s with pc := Function.update s.pc i (.done (authHeaders t)) }
  | missToken (s : AuthSys n) (i : Fin n) :
      s.pc i = .start → s.token = none →
      Step tok s { s with pc := Function.update s.pc i .waiting }
  | acquire (s : AuthSys n) (i : Fin n) :
      s.pc i = .waiting → s.lockHolder = none →
      Step tok s { s with lockHolder := some i,
                          pc := Function.update s.pc i .locked }
  | lockedHit (s : AuthSys n) (i : Fin n) (t : String) :
      s.pc i = .locked → s.token = some t →
      Step tok s { s with lockHolder := none,
                          pc := Function.update s.pc i (.done (authHeaders t)) }
  | csrfFetch (s : AuthSys n) (i : Fin n) :
      s.pc i = .locked → s.token = none →
      Step tok s { s with csrfFetches := s.csrfFetches + 1,
                          pc := Function.update s.pc i .csrfDone }
  | loginPost (s : AuthSys n) (i : Fin n) :
      s.pc i = .csrfDone →
      Step tok s { s with loginPosts := s.loginPosts + 1,
                          pc := Function.update s.pc i .postDone }
  | publish (s : AuthSys n) (i : Fin n) :
      s.pc i = .postDone →
      Step tok s { s with token := some tok, lockHolder := none,
                          pc := Function.update s.pc i (.done (authHeaders tok)) }

/-- Reachability of the concurrent system from its initial state. -/
def authReachable (tok : String) (n : Nat) (s : AuthSys n) : Prop :=
  Relation.ReflTransGen (Step tok) (AuthSys.init n) s

/-- A caller inside the lock-guarded critical section. -/
def inCrit : CallerPc → Prop
  | .locked => True
  | .csrfDone => True
  | .postDone => True
  | _ => False

/-- A caller in the middle of the handshake proper (after its first wire
step, before publishing the token). -/
def midHandshake : CallerPc → Prop
  | .csrfDone => True
  | .postDone => True
  | _ => False

/-! ### ThermostatService (src/py_netatmo_truetemp/thermostat_service.py)

Temperatures are embedded as rationals; Python float values appearing in
the code (`0.1` tolerance, the validator bounds) become the
corresponding rational constants. -/

/-- Failures `set_room_temperature` can raise. -/
inductive ThermoErr where
  | validation (message : String)
  | roomNotFound (roomId : String)
deriving Repr, DecidableEq

/-- One room entry of the `homestatus` response's `rooms` array, as the
service reads it: its id and its `therm_measured_temperature` entry —
`none` when the key is absent, `some none` when present but null,
`some (some q)` when a number. -/
structure StatusRoom where
  id : String
  measured : Option (Option ℚ)

/-- The `homestatus` response as the service reads it:
`body.home.rooms` (with `none` modelling any of those keys missing, the
`KeyError` path) and the top-level `time_server` entry. -/
structure HomeStatus where
  roomList : Option (List StatusRoom)
  timeServer : Option Int

/-- The JSON body posted to the true-temperature endpoint
(thermostat_service.py lines 115-120). -/
structure TruePayload where
  home_id : String
  room_id : String
  current_temperature : ℚ
  corrected_temperature : ℚ
deriving Repr, DecidableEq

/-- What `set_room_temperature` returns on success: either the inline
`{"status": "ok", "time_server": ...}` dict built when the room is
already at target (the skip branch), or the api client's POST response
returned verbatim. -/
inductive SetTempOutcome where
  | skipped (timeServer : Option Int)
  | posted (resp : String)
deriving Repr, DecidableEq

/-- Success value plus the number of POSTs issued to the
true-temperature endpoint during the call. -/
structure SetTempResult where
  outcome : SetTempOutcome
  posts : Nat
deriving Repr, DecidableEq

/-- Modelled from the spec: validators.py is not under src/; its tests
pin the behavior down — an id is invalid exactly when empty after
stripping whitespace. -/
def validate_id_ok (s : String) : Bool := !(blankStr s)

/-- Modelled from the spec: validators.py is not under src/; its tests
pin the behavior down — a temperature is valid exactly when within
-50.0 to 50.0 inclusive. -/
def validate_temperature_ok (t : ℚ) : Bool := -50 ≤ t ∧ t ≤ 50

/-- `ThermostatService.set_room_temperature` (thermostat_service.py
lines 38-134): validate inputs, resolve the default home id, look the
room up in the home status, raise `RoomNotFoundError` when it is absent
or has no measured temperature, skip the POST and return
`{"status": "ok", "time_server": status.get("time_server")}` when the
measured temperature is within 0.1°C of the target, and otherwise POST
the true-temperature payload and return the response.  `post` is the
api client; the `KeyError/IndexError` handler around the parsing block
becomes the explicit `roomNotFound` branches. -/
def set_room_temperature (roomId : String) (corrected : ℚ)
    (homeId? : Option String) (defaultHomeId : String)
    (status : HomeStatus) (post : TruePayload → String) :
    Except ThermoErr SetTempResult :=
  if ¬ validate_id_ok roomId then
    .error (.validation "room_id cannot be empty")
  else if ¬ validate_temperature_ok corrected then
    .error (.validation "corrected_temperature must be between -50.0°C and 50.0°C")
  else if homeId?.any (fun hid => !(validate_id_ok hid)) then
    .error (.validation "home_id cannot be empty")
  else
    let homeId := homeId?.getD defaultHomeId
    match status.roomList with
    | none => .error (.roomNotFound roomId)
    | some rooms =>
      match rooms.find? (fun room => room.id = roomId) with
      | none => .error (.roomNotFound roomId)
      | some room =>
        match room.measured with
        | none => .error (.roomNotFound roomId)
        | some none => .error (.roomNotFound roomId)
        | some (some current) =>
          if |current - corrected| < 1/10 then
            .ok { outcome := .skipped status.timeServer, posts := 0 }
          else
            .ok { outcome := .posted (post
                    { home_id := homeId, room_id := roomId,
                      current_temperature := current,
                      corrected_temperature := corrected }),
                  posts := 1 }

/-- The inductive invariant of the concurrent authentication system:
any held token is the handshake's token; the lock owner is exactly the
caller inside the critical section; a handshake in progress means no
token is published yet; the wire counters follow the handshake's phase
(nothing before it, one CSRF fetch after step one, one login POST after
step two, both exactly once as soon as a token exists); and a finished
caller always left with the headers of the single handshake's token,
which was published by then. -/
structure AuthInv (tok : String) {n : Nat} (s : AuthSys n) : Prop where
  token_val : ∀ t, s.token = some t → t = tok
  lock_pc : ∀ i, s.lockHolder = some i ↔ inCrit (s.pc i)
  mid_token : ∀ i, midHandshake (s.pc i) → s.token = none
  counts_idle : s.token = none → (∀ i, ¬ midHandshake (s.pc i)) →
    s.csrfFetches = 0 ∧ s.loginPosts = 0
  counts_csrf : (∃ i, s.pc i = .csrfDone) →
    s.csrfFetches = 1 ∧ s.loginPosts = 0
  counts_post : (∃ i, s.pc i = .postDone) →
    s.csrfFetches = 1 ∧ s.loginPosts = 1
  counts_tok : s.token ≠ none → s.csrfFetches = 1 ∧ s.loginPosts = 1
  done_ok : ∀ i h, s.pc i = .done h → h = authHeaders tok ∧ s.token = some tok

/-- A concrete two-caller schedule: caller 0 misses the token, acquires
the lock and performs the full handshake; states along the way. -/
def demoS1 : AuthSys 2 :=
  { AuthSys.init 2 with pc := Function.update (AuthSys.init 2).pc 0 .waiting }

/-- Caller 0 acquires the free lock. -/
def demoS2 : AuthSys 2 :=
  { demoS1 with lockHolder := some 0, pc := Function.update demoS1.pc 0 .locked }

/-- Caller 0 performs the CSRF fetch. -/
def demoS3 : AuthSys 2 :=
  { demoS2 with csrfFetches := demoS2.csrfFetches + 1,
                pc := Function.update demoS2.pc 0 .csrfDone }

/-- Caller 0 performs the login POST. -/
def demoS4 : AuthSys 2 :=
  { demoS3 with loginPosts := demoS3.loginPosts + 1,
                pc := Function.update demoS3.pc 0 .postDone }

/-- Caller 0 publishes the token and releases the lock. -/
def demoS5 : AuthSys 2 :=
  { demoS4 with token := some "tok-1", lockHolder := none,
                pc := Function.update demoS4.pc 0 (.done (authHeaders "tok-1")) }

/-- Caller 1 takes the lock-free fast path on the published token; both
callers are now finished. -/
def demoS6 : AuthSys 2 :=
  { demoS5 with pc := Function.update demoS5.pc 1 (.done (authHeaders "tok-1")) }

/-! ## Theorems -/

/-- C2: a first attempt answering 403 with a non-empty body (whatever
its content) makes the executor call `invalidate()` exactly once, fetch
fresh headers, retry exactly once, and return the retry's decoded
payload when the retry answers 200. -/
theorem exec_403_nonempty_then_200 (server : Nat → AttemptResult)
    (body payload : String)
    (h0 : server 0 = .httpFail 403 (.ok body)) (hb : blankStr body = false)
    (h1 : server 1 = .ok (some payload)) :
    execute server =
      { httpAttempts := 2, invalidations := 1, headerFetches := 2,
        result := .ok payload } := by
  unfold execute
  rw [h0]
  simp [is_authentication_error, hb, settleFinal, h1]

/-- Witness for C2 at a concrete server behavior. -/
theorem exec_403_nonempty_then_200_witness :
    execute (fun i => if i = 0 then
        .httpFail 403 (.ok "access token expired") else .ok (some "payload")) =
      { httpAttempts := 2, invalidations := 1, headerFetches := 2,
        result := .ok "payload" } :=
  exec_403_nonempty_then_200 _ "access token expired" "payload" rfl
    (by decide) rfl

/-- C3: a 403 whose body is empty or whitespace-only is a genuine server
error: no `invalidate()`, a single HTTP attempt, surfaced as `ApiError`
carrying status code 403. -/
theorem exec_403_empty_body (server : Nat → AttemptResult) (body : String)
    (h0 : server 0 = .httpFail 403 (.ok body)) (hb : blankStr body = true) :
    execute server =
      { httpAttempts := 1, invalidations := 0, headerFetches := 1,
        result := .error (httpErr 403) } ∧
    (httpErr 403).statusCode = some 403 := by
  refine ⟨?_, rfl⟩
  unfold execute
  rw [h0]
  simp [is_authentication_error, hb]

/-- Witness for C3 at a concrete server behavior with a
whitespace-only body. -/
theorem exec_403_empty_body_witness :
    execute (fun _ => .httpFail 403 (.ok "  \n\t")) =
      { httpAttempts := 1, invalidations := 0, headerFetches := 1,
        result := .error (httpErr 403) } ∧
    (httpErr 403).statusCode = some 403 :=
  exec_403_empty_body _ "  \n\t" rfl (by decide)

/-- C4: 403 with a non-empty body on both the original and the retried
attempt exhausts retries: exactly one `invalidate()`, exactly two HTTP
attempts, final result `ApiError` with status code 403. -/
theorem exec_403_both_attempts (server : Nat → AttemptResult) (b0 b1 : String)
    (h0 : server 0 = .httpFail 403 (.ok b0)) (hb0 : blankStr b0 = false)
    (h1 : server 1 = .httpFail 403 (.ok b1)) (_hb1 : blankStr b1 = false) :
    execute server =
      { httpAttempts := 2, invalidations := 1, headerFetches := 2,
        result := .error (httpErr 403) } ∧
    (httpErr 403).statusCode = some 403 := by
  refine ⟨?_, rfl⟩
  unfold execute
  rw [h0]
  simp [is_authentication_error, hb0, settleFinal, h1]

/-- Witness for C4 at a concrete server behavior. -/
theorem exec_403_both_attempts_witness :
    execute (fun _ => .httpFail 403 (.ok "access token expired")) =
      { httpAttempts := 2, invalidations := 1, headerFetches := 2,
        result := .error (httpErr 403) } ∧
    (httpErr 403).statusCode = some 403 :=
  exec_403_both_attempts _ "access token expired" "access token expired" rfl
    (by decide) rfl (by decide)

/-- C5: a network-level failure on any attempt — connection refused or
timeout on the first attempt, the same on the retried attempt, an
undecodable/empty body on a 200 on the first attempt, or the same on the
retried attempt — fails immediately as an `ApiError` whose message
identifies the failure class; it carries no 403 status (it is never the
authentication-failure classification) and triggers no further retry
beyond the attempt it occurred on. -/
theorem exec_network_failures :
    (∀ (server : Nat → AttemptResult) (k : NetKind), server 0 = .netFail k →
       execute server =
         { httpAttempts := 1, invalidations := 0, headerFetches := 1,
           result := .error (netErr k) }) ∧
    (∀ (server : Nat → AttemptResult) (k : NetKind) (body : String),
       server 0 = .httpFail 403 (.ok body) → blankStr body = false →
       server 1 = .netFail k →
       execute server =
         { httpAttempts := 2, invalidations := 1, headerFetches := 2,
           result := .error (netErr k) }) ∧
    (∀ (server : Nat → AttemptResult), server 0 = .ok none →
       execute server =
         { httpAttempts := 1, invalidations := 0, headerFetches := 1,
           result := .error decodeErr }) ∧
    (∀ (server : Nat → AttemptResult) (body : String),
       server 0 = .httpFail 403 (.ok body) → blankStr body = false →
       server 1 = .ok none →
       execute server =
         { httpAttempts := 2, invalidations := 1, headerFetches := 2,
           result := .error decodeErr }) ∧
    (∀ k, (netErr k).statusCode = none ∧
          strStarts "Network error" (netErr k).message = true) ∧
    strEnds "timeout" (netErr .timeout).message = true ∧
    decodeErr.statusCode = none ∧
    strStarts "Network error" decodeErr.message = true := by
  refine ⟨?_, ?_, ?_, ?_, ?_, by decide, rfl, by decide⟩
  · intro server k h0
    unfold execute
    rw [h0]
    simp [settleFinal]
  · intro server k body h0 hb h1
    unfold execute
    rw [h0]
    simp [is_authentication_error, hb, settleFinal, h1]
  · intro server h0
    unfold execute
    rw [h0]
    simp [settleFinal]
  · intro server body h0 hb h1
    unfold execute
    rw [h0]
    simp [is_authentication_error, hb, settleFinal, h1]
  · intro k
    cases k <;> exact ⟨rfl, by decide⟩

/-- Witness for C5: each network-failure scenario evaluated at a
concrete server behavior. -/
theorem exec_network_failures_witness :
    execute (fun _ => .netFail .connRefused) =
      { httpAttempts := 1, invalidations := 0, headerFetches := 1,
        result := .error (netErr .connRefused) } ∧
    execute (fun i => if i = 0 then .httpFail 403 (.ok "token expired")
             else .netFail .timeout) =
      { httpAttempts := 2, invalidations := 1, headerFetches := 2,
        result := .error (netErr .timeout) } ∧
    execute (fun _ => .ok none) =
      { httpAttempts := 1, invalidations := 0, headerFetches := 1,
        result := .error decodeErr } ∧
    execute (fun i => if i = 0 then .httpFail 403 (.ok "token expired")
             else .ok none) =
      { httpAttempts := 2, invalidations := 1, headerFetches := 2,
        result := .error decodeErr } :=
  ⟨exec_network_failures.1 _ .connRefused rfl,
   exec_network_failures.2.1 _ .timeout "token expired" rfl (by decide) rfl,
   exec_network_failures.2.2.1 _ rfl,
   exec_network_failures.2.2.2.1 _ "token expired" rfl (by decide) rfl⟩

/-- C6: the authentication-failure classifier is total on corrupted 403
failure objects — a body whose inspection raises is absorbed and
classified conservatively as an authentication failure — and the
executor then takes the retry branch: two HTTP attempts, one
`invalidate()`, a fresh header fetch. -/
theorem exec_corrupted_403 :
    is_authentication_error 403 (.error ()) = true ∧
    ∀ (server : Nat → AttemptResult), server 0 = .httpFail 403 (.error ()) →
      (execute server).httpAttempts = 2 ∧
      (execute server).invalidations = 1 ∧
      (execute server).headerFetches = 2 := by
  refine ⟨rfl, ?_⟩
  intro server h0
  unfold execute
  rw [h0]
  simp [is_authentication_error]

/-- Witness for C6 at a concrete server behavior. -/
theorem exec_corrupted_403_witness :
    is_authentication_error 403 (.error ()) = true ∧
    ((execute (fun _ => .httpFail 403 (.error ()))).httpAttempts = 2 ∧
     (execute (fun _ => .httpFail 403 (.error ()))).invalidations = 1 ∧
     (execute (fun _ => .httpFail 403 (.error ()))).headerFetches = 2) :=
  ⟨exec_corrupted_403.1, exec_corrupted_403.2 _ rfl⟩

/-- Reading a serialized string body: the characters up to the closing
quote are returned verbatim with the remainder, provided the body itself
contains no quote. -/
theorem parseQuoted_append (content rest : List Char) (h : '"' ∉ content) :
    parseQuoted (content ++ '"' :: rest) = some (content, rest) := by
  induction content with
  | nil => simp [parseQuoted]
  | cons c cs ih =>
    have hc : c ≠ '"' := fun e => h (e ▸ List.mem_cons_self c cs)
    have h' : '"' ∉ cs := fun hm => h (List.mem_cons_of_mem _ hm)
    simp [parseQuoted, hc, ih h']

/-- The serialized members are at least as many characters as there are
members (so the input length is always enough parsing fuel). -/
theorem length_le_encodeItems (r : CookieRecord) :
    r.length ≤ (encodeItems r).length := by
  induction r with
  | nil => simp [encodeItems]
  | cons p rest ih =>
    obtain ⟨k, v⟩ := p
    cases rest with
    | nil => simp [encodeItems, encodePair]
    | cons q rs =>
      simp only [encodeItems, encodePair, List.length_append, List.length_cons,
        List.length_append] at *
      omega

/-- Parsing inverts serialization on the member list, for any valid
non-empty record and sufficient fuel. -/
theorem parseItems_encodeItems (r : CookieRecord) : ∀ (fuel : Nat),
    validRecord r → r ≠ [] → r.length ≤ fuel →
    parseItems fuel (encodeItems r ++ ['}']) = some r := by
  induction r with
  | nil => intro fuel _ hne _; exact absurd rfl hne
  | cons p rest ih =>
    intro fuel hv _ hlen
    obtain ⟨k, v⟩ := p
    have hk : '"' ∉ k.data := (hv (k, v) (List.mem_cons_self _ _)).1
    have hvv : '"' ∉ v.data := (hv (k, v) (List.mem_cons_self _ _)).2
    cases fuel with
    | zero => simp only [List.length_cons] at hlen; omega
    | succ fuel =>
      cases rest with
      | nil =>
        show parseItems (fuel + 1) (encodePair k v ++ ['}']) = some [(k, v)]
        simp only [encodePair, List.cons_append, List.append_assoc]
        rw [parseItems]
        rw [parseQuoted_append k.data _ hk]
        simp only [List.cons_append]
        rw [parseQuoted_append v.data _ hvv]
        simp
      | cons q rs =>
        have hv' : validRecord (q :: rs) :=
          fun x hx => hv x (List.mem_cons_of_mem _ hx)
        have hlen' : (q :: rs).length ≤ fuel := by
          simp only [List.length_cons] at hlen ⊢; omega
        show parseItems (fuel + 1)
            ((encodePair k v ++ ',' :: ' ' :: encodeItems (q :: rs)) ++ ['}']) =
          some ((k, v) :: q :: rs)
        simp only [encodePair, List.cons_append, List.append_assoc]
        rw [parseItems]
        rw [parseQuoted_append k.data _ hk]
        simp only [List.cons_append]
        rw [parseQuoted_append v.data _ hvv]
        simp [ih fuel hv' (by simp) hlen']

/-- Parsing inverts serialization on whole records: the cache file's
content written by `save` parses back to the identical record. -/
theorem parseRecord_serializeRecord (r : CookieRecord) (hv : validRecord r) :
    parseRecord (serializeRecord r) = some r := by
  cases r with
  | nil => rfl
  | cons p rest =>
    show parseItems (serializeRecord (p :: rest)).data.length
        (encodeItems (p :: rest) ++ ['}']) = some (p :: rest)
    apply parseItems_encodeItems _ _ hv (by simp)
    have h1 := length_le_encodeItems (p :: rest)
    have h2 : (serializeRecord (p :: rest)).data.length =
        (encodeItems (p :: rest)).length + 2 := by
      simp [serializeRecord]
    omega

/-- A serialized record is never the empty string. -/
theorem serializeRecord_ne_empty (r : CookieRecord) : serializeRecord r ≠ "" := by
  intro h
  have := congrArg String.data h
  simp [serializeRecord] at this

/-- C7: `load` returns absent — never an error — when the cache file does
not exist, is empty, or fails to parse; in the parse-failure case the
corrupt file is deleted as a side effect, so loading again also returns
absent. -/
theorem cookie_load_absent (fs : CookieFs) :
    (fs.file = none → CookieStore.load fs = (none, fs)) ∧
    (∀ m, fs.file = some ("", m) → (CookieStore.load fs).1 = none) ∧
    (∀ c m, fs.file = some (c, m) → c ≠ "" → parseRecord c = none →
       CookieStore.load fs = (none, { fs with file := none }) ∧
       (CookieStore.load { fs with file := none }).1 = none) := by
  refine ⟨?_, ?_, ?_⟩
  · intro h
    unfold CookieStore.load
    rw [h]
  · intro m h
    unfold CookieStore.load
    rw [h]
    simp
  · intro c m h hc hp
    constructor
    · unfold CookieStore.load
      rw [h]
      simp [hc, hp]
    · rfl

/-- Witness for C7: the three absent cases evaluated at concrete file
states, including a deleted-after-corruption reload. -/
theorem cookie_load_absent_witness :
    CookieStore.load { file := none, dirMode := none } =
      (none, { file := none, dirMode := none }) ∧
    (CookieStore.load { file := some ("", 0o600), dirMode := some 0o700 }).1 =
      none ∧
    (CookieStore.load
        { file := some ("broken json content", 0o600), dirMode := some 0o700 } =
      (none, { file := none, dirMode := some 0o700 }) ∧
     (CookieStore.load { file := none, dirMode := some 0o700 }).1 = none) :=
  ⟨(cookie_load_absent _).1 rfl,
   (cookie_load_absent _).2.1 0o600 rfl,
   (cookie_load_absent _).2.2 "broken json content" 0o600 rfl (by decide) rfl⟩

/-- C8: saving a valid record and loading it back returns the identical
record. -/
theorem cookie_save_load_round_trip (r : CookieRecord) (fs : CookieFs)
    (hv : validRecord r) :
    (CookieStore.load (CookieStore.save r fs)).1 = some r := by
  unfold CookieStore.save CookieStore.load
  simp [serializeRecord_ne_empty r, parseRecord_serializeRecord r hv]

/-- Witness for C8 at a concrete record and file state. -/
theorem cookie_save_load_round_trip_witness :
    (CookieStore.load (CookieStore.save
        [("session", "test123"), ("token", "abc")]
        { file := none, dirMode := none })).1 =
      some [("session", "test123"), ("token", "abc")] :=
  cookie_save_load_round_trip _ _ (by decide)

/-- C9: with valid credentials, no token held and no cache file present,
`getAuthHeaders()` performs the 4-step handshake and returns
`Authorization: Bearer <token>` plus the fixed User-Agent client
identifier; afterwards the cache file exists with owner-only mode 0o600
and the newly created parent directory has mode 0o700. -/
theorem get_auth_headers_initial (st : AuthState) (w : WireFlow)
    (sess csrf tokenCookie : String)
    (hTok : st.token = none) (_hFile : st.fs.file = none)
    (hDir : st.fs.dirMode = none)
    (ha : w.sessionCookie = some sess) (hb : w.csrfToken = some csrf)
    (hc : w.accessTokenCookie = some tokenCookie) (hd : w.finalizeOk = true) :
    get_auth_headers st w =
      .ok ([("Authorization", "Bearer " ++ tokenCookie),
            ("User-Agent", "netatmo-home")],
        { token := some tokenCookie,
          fs := { file := some (serializeRecord
                    [("session", sess),
                     ("netatmocomaccess_token", tokenCookie)], 0o600),
                  dirMode := some 0o700 } }) := by
  unfold get_auth_headers performHandshake CookieStore.save
  rw [hTok, ha, hb, hc, hd]
  simp [authHeaders, userAgent, hDir]

/-- Witness for C9 at a concrete wire flow and empty cache. -/
theorem get_auth_headers_initial_witness :
    get_auth_headers { token := none, fs := { file := none, dirMode := none } }
      { sessionCookie := some "session-1", csrfToken := some "csrf-1",
        accessTokenCookie := some "access-token-1", finalizeOk := true } =
      .ok ([("Authorization", "Bearer " ++ "access-token-1"),
            ("User-Agent", "netatmo-home")],
        { token := some "access-token-1",
          fs := { file := some (serializeRecord
                    [("session", "session-1"),
                     ("netatmocomaccess_token", "access-token-1")], 0o600),
                  dirMode := some 0o700 } }) :=
  get_auth_headers_initial _ _ "session-1" "csrf-1" "access-token-1"
    rfl rfl rfl rfl rfl rfl rfl

/-- C10: when the target room is found in the home status and its
measured temperature differs from the requested corrected temperature by
strictly less than 0.1°C, `set_room_temperature` returns the inline
`{"status": "ok", "time_server": <the status response's time_server>}`
success value and issues no POST to the true-temperature endpoint. -/
theorem set_room_temperature_skip (roomId : String) (corrected current : ℚ)
    (homeId? : Option String) (defaultHomeId : String) (status : HomeStatus)
    (post : TruePayload → String) (rooms : List StatusRoom) (room : StatusRoom)
    (hid : validate_id_ok roomId = true)
    (htemp : validate_temperature_ok corrected = true)
    (hhome : ∀ h ∈ homeId?, validate_id_ok h = true)
    (hrooms : status.roomList = some rooms)
    (hfind : rooms.find? (fun room => room.id = roomId) = some room)
    (hmeas : room.measured = some (some current))
    (hclose : |current - corrected| < 1 / 10) :
    set_room_temperature roomId corrected homeId? defaultHomeId status post =
      .ok { outcome := .skipped status.timeServer, posts := 0 } := by
  have hany : (homeId?.any fun h => !(validate_id_ok h)) = false := by
    cases homeId? with
    | none => rfl
    | some hid => simp [Option.any, hhome hid (by simp)]
  unfold set_room_temperature
  rw [hrooms]
  simp [hid, htemp, hany, hfind, hmeas]
  simpa using hclose

/-- Witness for C10: a room measured at 19.99°C with target 20.0°C is
within tolerance; the call returns the status response's `time_server`
and performs zero POSTs. -/
theorem set_room_temperature_skip_witness :
    set_room_temperature "room-1" 20 (some "home-123") "home-123"
      { roomList := some [{ id := "room-1", measured := some (some (1999 / 100)) }],
        timeServer := some 1642345678 }
      (fun _ => "posted") =
      .ok { outcome := .skipped (some 1642345678), posts := 0 } :=
  set_room_temperature_skip "room-1" 20 (1999 / 100) (some "home-123")
    "home-123" _ _ _ { id := "room-1", measured := some (some (1999 / 100)) }
    (by decide) (by decide) (by intro h hh; cases hh; decide) rfl rfl rfl
    (by
      have he : (1999 / 100 : ℚ) - 20 = -(1 / 100) := by norm_num
      rw [he, abs_neg, abs_of_pos (by norm_num : (0 : ℚ) < 1 / 100)]
      norm_num)

/-- A caller mid-handshake is inside the critical section. -/
theorem mid_inCrit (p : CallerPc) (h : midHandshake p) : inCrit p := by
  cases p <;> simp_all [midHandshake, inCrit]

/-- The initial state satisfies the invariant. -/
theorem authInv_init (tok : String) (n : Nat) : AuthInv tok (AuthSys.init n) := by
  refine ⟨?_, ?_, ?_, ?_, ?_, ?_, ?_, ?_⟩
  · intro t h; exact absurd h (by simp [AuthSys.init])
  · intro i; simp [AuthSys.init, inCrit]
  · intro i h; simp [AuthSys.init, midHandshake] at h
  · intro _ _; exact ⟨rfl, rfl⟩
  · rintro ⟨i, h⟩; simp [AuthSys.init] at h
  · rintro ⟨i, h⟩; simp [AuthSys.init] at h
  · intro h; exact absurd rfl h
  · intro i h hd; simp [AuthSys.init] at hd

/-- Every transition preserves the invariant. -/
theorem authInv_step {tok : String} {n : Nat} {s s' : AuthSys n}
    (hstep : Step tok s s') (hinv : AuthInv tok s) : AuthInv tok s' := by
  cases hstep with
  | fastPath i t hpc htok =>
    have htt : t = tok := hinv.token_val t htok
    refine ⟨hinv.token_val, ?_, ?_, ?_, ?_, ?_, hinv.counts_tok, ?_⟩
    · intro j
      by_cases hj : j = i
      · subst hj
        simp only [Function.update_same]
        constructor
        · intro hl
          have hc := (hinv.lock_pc j).1 hl
          rw [hpc] at hc
          simp [inCrit] at hc
        · intro hc
          simp [inCrit] at hc
      · simpa [Function.update_noteq hj] using hinv.lock_pc j
    · intro j hm
      by_cases hj : j = i
      · subst hj; simp only [Function.update_same] at hm
        simp [midHandshake] at hm
      · simp only [Function.update_noteq hj] at hm; exact hinv.mid_token j hm
    · intro h0 _
      simp only [] at h0; rw [htok] at h0; exact Option.noConfusion h0
    · rintro ⟨j, hj⟩
      by_cases hji : j = i
      · subst hji; simp only [Function.update_same] at hj; simp at hj
      · simp only [Function.update_noteq hji] at hj; exact hinv.counts_csrf ⟨j, hj⟩
    · rintro ⟨j, hj⟩
      by_cases hji : j = i
      · subst hji; simp only [Function.update_same] at hj; simp at hj
      · simp only [Function.update_noteq hji] at hj; exact hinv.counts_post ⟨j, hj⟩
    · intro j h hj
      by_cases hji : j = i
      · subst hji; simp only [Function.update_same] at hj
        injection hj with hh
        subst hh
        exact ⟨by rw [htt], by rw [htok, htt]⟩
      · simp only [Function.update_noteq hji] at hj; exact hinv.done_ok j h hj
  | missToken i hpc htok =>
    refine ⟨hinv.token_val, ?_, ?_, ?_, ?_, ?_, hinv.counts_tok, ?_⟩
    · intro j
      by_cases hj : j = i
      · subst hj
        simp only [Function.update_same]
        constructor
        · intro hl
          have hc := (hinv.lock_pc j).1 hl
          rw [hpc] at hc
          simp [inCrit] at hc
        · intro hc
          simp [inCrit] at hc
      · simpa [Function.update_noteq hj] using hinv.lock_pc j
    · intro j hm
      by_cases hj : j = i
      · subst hj; simp only [Function.update_same] at hm
        simp [midHandshake] at hm
      · simp only [Function.update_noteq hj] at hm; exact hinv.mid_token j hm
    · intro h0 hnm
      apply hinv.counts_idle h0
      intro j
      by_cases hj : j = i
      · subst hj; rw [hpc]; simp [midHandshake]
      · have := hnm j; simp only [Function.update_noteq hj] at this; exact this
    · rintro ⟨j, hj⟩
      by_cases hji : j = i
      · subst hji; simp only [Function.update_same] at hj; simp at hj
      · simp only [Function.update_noteq hji] at hj; exact hinv.counts_csrf ⟨j, hj⟩
    · rintro ⟨j, hj⟩
      by_cases hji : j = i
      · subst hji; simp only [Function.update_same] at hj; simp at hj
      · simp only [Function.update_noteq hji] at hj; exact hinv.counts_post ⟨j, hj⟩
    · intro j h hj
      by_cases hji : j = i
      · subst hji; simp only [Function.update_same] at hj; simp at hj
      · simp only [Function.update_noteq hji] at hj; exact hinv.done_ok j h hj
  | acquire i hpc hlock =>
    refine ⟨hinv.token_val, ?_, ?_, ?_, ?_, ?_, hinv.counts_tok, ?_⟩
    · intro j
      by_cases hj : j = i
      · subst hj
        simp only [Function.update_same]
        constructor
        · intro _; simp [inCrit]
        · intro _; trivial
      · constructor
        · intro he
          simp only [] at he
          injection he with he'
          exact absurd he'.symm hj
        · intro hc
          simp only [Function.update_noteq hj] at hc
          have := (hinv.lock_pc j).2 hc
          rw [hlock] at this; exact Option.noConfusion this
    · intro j hm
      by_cases hj : j = i
      · subst hj; simp only [Function.update_same] at hm
        simp [midHandshake] at hm
      · simp only [Function.update_noteq hj] at hm; exact hinv.mid_token j hm
    · intro h0 hnm
      apply hinv.counts_idle h0
      intro j
      by_cases hj : j = i
      · subst hj; rw [hpc]; simp [midHandshake]
      · have := hnm j; simp only [Function.update_noteq hj] at this; exact this
    · rintro ⟨j, hj⟩
      by_cases hji : j = i
      · subst hji; simp only [Function.update_same] at hj; simp at hj
      · simp only [Function.update_noteq hji] at hj; exact hinv.counts_csrf ⟨j, hj⟩
    · rintro ⟨j, hj⟩
      by_cases hji : j = i
      · subst hji; simp only [Function.update_same] at hj; simp at hj
      · simp only [Function.update_noteq hji] at hj; exact hinv.counts_post ⟨j, hj⟩
    · intro j h hj
      by_cases hji : j = i
      · subst hji; simp only [Function.update_same] at hj; simp at hj
      · simp only [Function.update_noteq hji] at hj; exact hinv.done_ok j h hj
  | lockedHit i t hpc htok =>
    have hlock : s.lockHolder = some i :=
      (hinv.lock_pc i).2 (by rw [hpc]; trivial)
    refine ⟨hinv.token_val, ?_, ?_, ?_, ?_, ?_, hinv.counts_tok, ?_⟩
    · intro j
      constructor
      · intro he; simp only [] at he; exact Option.noConfusion he
      · intro hc
        by_cases hj : j = i
        · subst hj; simp only [Function.update_same] at hc
          simp [inCrit] at hc
        · simp only [Function.update_noteq hj] at hc
          have := (hinv.lock_pc j).2 hc
          rw [hlock] at this
          injection this with he
          exact absurd he.symm hj
    · intro j hm
      by_cases hj : j = i
      · subst hj; simp only [Function.update_same] at hm
        simp [midHandshake] at hm
      · simp only [Function.update_noteq hj] at hm; exact hinv.mid_token j hm
    · intro h0 _
      simp only [] at h0; rw [htok] at h0; exact Option.noConfusion h0
    · rintro ⟨j, hj⟩
      by_cases hji : j = i
      · subst hji; simp only [Function.update_same] at hj; simp at hj
      · simp only [Function.update_noteq hji] at hj; exact hinv.counts_csrf ⟨j, hj⟩
    · rintro ⟨j, hj⟩
      by_cases hji : j = i
      · subst hji; simp only [Function.update_same] at hj; simp at hj
      · simp only [Function.update_noteq hji] at hj; exact hinv.counts_post ⟨j, hj⟩
    · intro j h hj
      by_cases hji : j = i
      · subst hji; simp only [Function.update_same] at hj
        injection hj with hh
        subst hh
        have htt : t = tok := hinv.token_val t htok
        exact ⟨by rw [htt], by rw [htok, htt]⟩
      · simp only [Function.update_noteq hji] at hj; exact hinv.done_ok j h hj
  | csrfFetch i hpc htok =>
    have hlock : s.lockHolder = some i :=
      (hinv.lock_pc i).2 (by rw [hpc]; trivial)
    have hnomid : ∀ j, ¬ midHandshake (s.pc j) := by
      intro j hm
      have := (hinv.lock_pc j).2 (mid_inCrit _ hm)
      rw [hlock] at this
      injection this with he
      subst he
      rw [hpc] at hm
      simp [midHandshake] at hm
    have hcounts := hinv.counts_idle htok hnomid
    refine ⟨hinv.token_val, ?_, ?_, ?_, ?_, ?_, ?_, ?_⟩
    · intro j
      by_cases hj : j = i
      · subst hj
        simp only [Function.update_same]
        constructor
        · intro _; simp [inCrit]
        · intro _; exact hlock
      · constructor
        · intro he
          simp only [] at he
          rw [hlock] at he
          injection he with he'
          exact absurd he'.symm hj
        · intro hc
          simp only [Function.update_noteq hj] at hc
          have := (hinv.lock_pc j).2 hc
          rw [hlock] at this
          injection this with he
          exact absurd he.symm hj
    · intro j _; exact htok
    · intro _ hnm
      have hmi := hnm i
      simp only [Function.update_same] at hmi
      simp [midHandshake] at hmi
    · intro _
      refine ⟨?_, hcounts.2⟩
      have hc1 := hcounts.1
      simp only []
      omega
    · rintro ⟨j, hj⟩
      by_cases hji : j = i
      · subst hji; simp only [Function.update_same] at hj; simp at hj
      · simp only [Function.update_noteq hji] at hj
        exact absurd (by rw [hj]; trivial) (hnomid j)
    · intro h
      exact absurd htok h
    · intro j h hj
      by_cases hji : j = i
      · subst hji; simp only [Function.update_same] at hj; simp at hj
      · simp only [Function.update_noteq hji] at hj
        have := (hinv.done_ok j h hj).2
        rw [htok] at this; cases this
  | loginPost i hpc =>
    have htok : s.token = none := hinv.mid_token i (by rw [hpc]; trivial)
    have hlock : s.lockHolder = some i :=
      (hinv.lock_pc i).2 (by rw [hpc]; trivial)
    have hcounts := hinv.counts_csrf ⟨i, hpc⟩
    refine ⟨hinv.token_val, ?_, ?_, ?_, ?_, ?_, ?_, ?_⟩
    · intro j
      by_cases hj : j = i
      · subst hj
        simp only [Function.update_same]
        constructor
        · intro _; simp [inCrit]
        · intro _; exact hlock
      · constructor
        · intro he
          simp only [] at he
          rw [hlock] at he
          injection he with he'
          exact absurd he'.symm hj
        · intro hc
          simp only [Function.update_noteq hj] at hc
          have := (hinv.lock_pc j).2 hc
          rw [hlock] at this
          injection this with he
          exact absurd he.symm hj
    · intro j _; exact htok
    · intro _ hnm
      have hmi := hnm i
      simp only [Function.update_same] at hmi
      simp [midHandshake] at hmi
    · rintro ⟨j, hj⟩
      by_cases hji : j = i
      · subst hji; simp only [Function.update_same] at hj; simp at hj
      · simp only [Function.update_noteq hji] at hj
        have := (hinv.lock_pc j).2 (by rw [hj]; trivial)
        rw [hlock] at this
        injection this with he
        exact absurd he.symm hji
    · intro _
      refine ⟨hcounts.1, ?_⟩
      have hp1 := hcounts.2
      simp only []
      omega
    · intro h
      exact absurd htok h
    · intro j h hj
      by_cases hji : j = i
      · subst hji; simp only [Function.update_same] at hj; simp at hj
      · simp only [Function.update_noteq hji] at hj
        have := (hinv.done_ok j h hj).2
        rw [htok] at this; cases this
  | publish i hpc =>
    have htok : s.token = none := hinv.mid_token i (by rw [hpc]; trivial)
    have hlock : s.lockHolder = some i :=
      (hinv.lock_pc i).2 (by rw [hpc]; trivial)
    have hcounts := hinv.counts_post ⟨i, hpc⟩
    refine ⟨?_, ?_, ?_, ?_, ?_, ?_, ?_, ?_⟩
    · intro t h
      simp only [] at h
      injection h with he
      exact he.symm
    · intro j
      constructor
      · intro he; simp only [] at he; exact Option.noConfusion he
      · intro hc
        by_cases hj : j = i
        · subst hj; simp only [Function.update_same] at hc
          simp [inCrit] at hc
        · simp only [Function.update_noteq hj] at hc
          have := (hinv.lock_pc j).2 hc
          rw [hlock] at this
          injection this with he
          exact absurd he.symm hj
    · intro j hm
      by_cases hj : j = i
      · subst hj; simp only [Function.update_same] at hm
        simp [midHandshake] at hm
      · simp only [Function.update_noteq hj] at hm
        have := (hinv.lock_pc j).2 (mid_inCrit _ hm)
        rw [hlock] at this
        injection this with he
        exact absurd he.symm hj
    · intro h0 _; simp only [] at h0; exact Option.noConfusion h0
    · rintro ⟨j, hj⟩
      by_cases hji : j = i
      · subst hji; simp only [Function.update_same] at hj; simp at hj
      · simp only [Function.update_noteq hji] at hj
        have := (hinv.lock_pc j).2 (by rw [hj]; trivial)
        rw [hlock] at this
        injection this with he
        exact absurd he.symm hji
    · rintro ⟨j, hj⟩
      by_cases hji : j = i
      · subst hji; simp only [Function.update_same] at hj; simp at hj
      · simp only [Function.update_noteq hji] at hj
        have := (hinv.lock_pc j).2 (by rw [hj]; trivial)
        rw [hlock] at this
        exact absurd (Option.some.inj this).symm hji

    · intro _; exact hcounts
    · intro j h hj
      by_cases hji : j = i
      · subst hji; simp only [Function.update_same] at hj
        injection hj with hh
        exact ⟨hh.symm, rfl⟩
      · simp only [Function.update_noteq hji] at hj
        have := (hinv.done_ok j h hj).2
        rw [htok] at this; cases this

/-- The invariant holds in every reachable state. -/
theorem authInv_reachable (tok : String) (n : Nat) (s : AuthSys n)
    (h : authReachable tok n s) : AuthInv tok s := by
  induction h with
  | refl => exact authInv_init tok n
  | tail _ hstep ih => exact authInv_step hstep ih

/-- C1: in every reachable state of the concurrent system in which all N
callers have finished `getAuthHeaders` with no token initially held,
exactly one handshake was performed on the wire (one CSRF fetch, one
login POST), and every caller finished with the headers derived from
that single handshake's token. -/
theorem single_flight_handshake (tok : String) (n : Nat) (s : AuthSys n)
    (hreach : authReachable tok n s)
    (hdone : ∀ i, ∃ h, s.pc i = .done h) :
    (0 < n → s.csrfFetches = 1 ∧ s.loginPosts = 1) ∧
    (∀ i h, s.pc i = .done h → h = authHeaders tok) := by
  have hinv := authInv_reachable tok n s hreach
  constructor
  · intro hn
    obtain ⟨h, hh⟩ := hdone ⟨0, hn⟩
    have := (hinv.done_ok _ h hh).2
    exact hinv.counts_tok (by rw [this]; exact fun he => Option.noConfusion he)
  · intro i h hh
    exact (hinv.done_ok i h hh).1

/-- Witness for C1: a full interleaving of two concurrent callers —
caller 0 performs the handshake under the lock, caller 1 reuses the
published token — reaches the all-done state with exactly one CSRF
fetch, one login POST, and both callers holding the handshake token's
headers. -/
theorem single_flight_handshake_witness :
    (0 < 2 → demoS6.csrfFetches = 1 ∧ demoS6.loginPosts = 1) ∧
    (∀ i h, demoS6.pc i = .done h → h = authHeaders "tok-1") := by
  have h1 : Step "tok-1" (AuthSys.init 2) demoS1 :=
    Step.missToken _ 0 rfl rfl
  have h2 : Step "tok-1" demoS1 demoS2 :=
    Step.acquire _ 0 rfl rfl
  have h3 : Step "tok-1" demoS2 demoS3 :=
    Step.csrfFetch _ 0 rfl rfl
  have h4 : Step "tok-1" demoS3 demoS4 :=
    Step.loginPost _ 0 rfl
  have h5 : Step "tok-1" demoS4 demoS5 :=
    Step.publish _ 0 rfl
  have h6 : Step "tok-1" demoS5 demoS6 :=
    Step.fastPath _ 1 "tok-1" rfl rfl
  have hreach : authReachable "tok-1" 2 demoS6 :=
    .head h1 (.head h2 (.head h3 (.head h4 (.head h5 (.single h6)))))
  exact single_flight_handshake "tok-1" 2 demoS6 hreach
    (fun i => ⟨authHeaders "tok-1", by
      fin_cases i <;> simp [demoS6, demoS5, demoS4, demoS3, demoS2, demoS1,
        AuthSys.init, Function.update]⟩)

end NetatmoTrueTemp
